import Mathlib

/-!
Verification development for ws-tcp-relay.

Shallow embedding of `ws-tcp-relay.go`.  The two session handlers
(`wsRelayHandler`, `tcpRelayHandle`) are straight-line programs over two
connection handles; each is embedded as the function that maps the handler's
inputs (the process-wide flags, the outcome of the dial, the protocol list the
client offered) to the sequence of actions the handler performs, in program
order.  `copyWorker` is embedded over a scripted reader and a writer oracle.
The relay phase (two goroutines and one unbuffered channel) is given a
small-step semantics with an explicit scheduler.
-/

namespace WsTcpRelay

/-! ## Data model -/

/-- The package-level variables the handlers read (`var targetAddress string`,
`var binaryMode bool`, `var tlsEnable bool`, `var subprotocols string`).  They
are written once by `main` (flag parsing) before any handler runs. -/
structure Globals where
  targetAddress : String
  binaryMode : Bool
  tlsEnable : Bool
  subprotocols : String
  deriving DecidableEq, Repr

/-- The two connection handles of a session, named as the handlers name them:
`ws` is the WebSocket connection, `conn` the raw TCP connection. -/
inductive Conn where
  | ws
  | conn
  deriving DecidableEq, Repr

/-- The value `websocket.TextFrame` of the library (a frame-type byte). -/
def TextFrame : Nat := 1

/-- The value `websocket.BinaryFrame` of the library (a frame-type byte). -/
def BinaryFrame : Nat := 2

/-- The one field of `tls.Config` the program sets. -/
structure TlsConfig where
  InsecureSkipVerify : Bool
  deriving DecidableEq, Repr

/-- The fields of `websocket.Config` the program reads or writes.  `Protocol`
is a Go slice: `none` is the nil slice, `some l` a non-nil slice.  `Location`
and `Origin` hold the request URI strings handed to `websocket.NewConfig`. -/
structure WsConfig where
  Location : String
  Origin : String
  Protocol : Option (List String)
  TlsConfig : Option TlsConfig
  deriving DecidableEq, Repr

/-- One action of a session handler, in the order the handler performs them. -/
inductive Action where
  /-- Call of `net.Dial(network, address)`. -/
  | dial (network address : String)
  /-- Call of `websocket.NewConfig(server, origin)`. -/
  | newConfig (server origin : String)
  /-- Call of `websocket.DialConfig(config)`. -/
  | dialConfig (config : WsConfig)
  /-- Call of `log.Printf` that writes the line `msg`. -/
  | logError (msg : String)
  /-- Call of `c.Close()`. -/
  | close (c : Conn)
  /-- Assignment `ws.PayloadType = t`. -/
  | setPayloadType (t : Nat)
  /-- Statement `doneCh := make(chan bool)`. -/
  | makeChan
  /-- Statement `go copyWorker(dst, src, doneCh)`. -/
  | go (dst src : Conn)
  /-- Receive `<-doneCh`. -/
  | recv
  /-- The handler returns. -/
  | ret
  /-- Run-time panic of `protocol[0]` on a non-nil slice of length zero. -/
  | indexPanic
  deriving DecidableEq, Repr

/-- The line `log.Printf("[ERROR] %v\n", err)` writes for the error text `err`. -/
def errorLine (err : String) : String := "[ERROR] " ++ err ++ "\n"

/-- The line `log.Printf("[ERROR] invalid '%v'\n", subprotocols)` writes. -/
def invalidLine (subprotocols : String) : String :=
  "[ERROR] invalid \x27" ++ subprotocols ++ "\x27\n"

/-! ## Forward mode -/

/-- The handler `wsRelayHandler(ws)`.  `dialResult` is what
`net.Dial("tcp", targetAddress)` returns (`.error e` with the error text, or
`.ok ()` with the connection `conn`); `protocol` is `ws.Config().Protocol`. -/
def wsRelayHandler (g : Globals) (dialResult : Except String Unit)
    (protocol : Option (List String)) : List Action :=
  Action.dial "tcp" g.targetAddress ::
  match dialResult with
  | .error err => [.logError (errorLine err), .close .ws, .ret]
  | .ok _ =>
    match protocol with
    | some [] => [.indexPanic]
    | some (p0 :: _) =>
      if p0 != g.subprotocols then
        [.logError (invalidLine g.subprotocols), .close .ws, .close .conn, .ret]
      else
        (if g.binaryMode then [Action.setPayloadType BinaryFrame] else []) ++
        [.makeChan, .go .conn .ws, .go .ws .conn, .recv, .close .conn, .close .ws, .recv, .ret]
    | none =>
      (if g.binaryMode then [Action.setPayloadType BinaryFrame] else []) ++
      [.makeChan, .go .conn .ws, .go .ws .conn, .recv, .close .conn, .close .ws, .recv, .ret]

/-! ## Reverse mode -/

/-- The library function `websocket.NewConfig(server, origin)`: both strings go
through `url.ParseRequestURI`, and the first failure is returned.  `parseErr s`
is the error the URL parser gives for `s`, `none` when it accepts `s`. -/
def NewConfig (parseErr : String → Option String) (server origin : String) :
    Except String WsConfig :=
  match parseErr server with
  | some err => .error err
  | none =>
    match parseErr origin with
    | some err => .error err
    | none => .ok { Location := server, Origin := origin, Protocol := none, TlsConfig := none }

/-- The local variable `wsAddr` of `tcpRelayHandle`:
`fmt.Sprintf("wss://%s", targetAddress)` under `tlsEnable`, else
`fmt.Sprintf("ws://%s", targetAddress)`. -/
def wsAddr (g : Globals) : String :=
  if g.tlsEnable then "wss://" ++ g.targetAddress else "ws://" ++ g.targetAddress

/-- The local variable `origAddr` of `tcpRelayHandle`:
`fmt.Sprintf("https://%s", targetAddress)` under `tlsEnable`, else
`fmt.Sprintf("http://%s", targetAddress)`. -/
def origAddr (g : Globals) : String :=
  if g.tlsEnable then "https://" ++ g.targetAddress else "http://" ++ g.targetAddress

/-- The handler `tcpRelayHandle(conn)`.  `parseErr` is the URL parser behind
`websocket.NewConfig`; `dialResult` is what `websocket.DialConfig(config)`
returns (`.error e`, or `.ok ()` with the connection `ws`). -/
def tcpRelayHandle (g : Globals) (parseErr : String → Option String)
    (dialResult : Except String Unit) : List Action :=
  Action.newConfig (wsAddr g) (origAddr g) ::
  match NewConfig parseErr (wsAddr g) (origAddr g) with
  | .error err => [.logError (errorLine err), .close .conn, .ret]
  | .ok config =>
    let config := { config with TlsConfig := some { InsecureSkipVerify := true } }
    let config := { config with Protocol := some [g.subprotocols] }
    Action.dialConfig config ::
    match dialResult with
    | .error err => [.logError (errorLine err), .close .conn, .ret]
    | .ok _ =>
      (if g.binaryMode then [Action.setPayloadType BinaryFrame] else []) ++
      [.makeChan, .go .conn .ws, .go .ws .conn, .recv, .close .conn, .close .ws, .recv, .ret]

/-! ## Readings of a handler trace -/

/-- Number of calls of `net.Dial` and `websocket.DialConfig` in a trace. -/
def dialCount : List Action → Nat
  | [] => 0
  | .dial _ _ :: t => dialCount t + 1
  | .dialConfig _ :: t => dialCount t + 1
  | _ :: t => dialCount t

/-- Number of `go copyWorker(...)` statements in a trace. -/
def goCount : List Action → Nat
  | [] => 0
  | .go _ _ :: t => goCount t + 1
  | _ :: t => goCount t

/-- Number of receives `<-doneCh` in a trace. -/
def recvCount : List Action → Nat
  | [] => 0
  | .recv :: t => recvCount t + 1
  | _ :: t => recvCount t

/-- Number of calls `c.Close()` in a trace. -/
def closeCount (c : Conn) (tr : List Action) : Nat := tr.count (Action.close c)

/-- The value of `ws.PayloadType` after the actions of `tr`, from the value `pt`. -/
def payloadTypeAfter (pt : Nat) : List Action → Nat
  | [] => pt
  | .setPayloadType t :: tr => payloadTypeAfter t tr
  | _ :: tr => payloadTypeAfter pt tr

/-- The values `ws.PayloadType` has at each `go copyWorker(...)` of `tr`, in
order, starting from the value `pt`. -/
def payloadTypeAtGo (pt : Nat) : List Action → List Nat
  | [] => []
  | .setPayloadType t :: tr => payloadTypeAtGo t tr
  | .go _ _ :: tr => pt :: payloadTypeAtGo pt tr
  | _ :: tr => payloadTypeAtGo pt tr

/-- The configurations handed to `websocket.DialConfig` in a trace. -/
def dialedConfigs : List Action → List WsConfig
  | [] => []
  | .dialConfig c :: tr => c :: dialedConfigs tr
  | _ :: tr => dialedConfigs tr

/-! ## The copy worker -/

/-- A byte of a stream. -/
abbrev Byte := Fin 256

/-- An error value of a `Read` or `Write` call: `io.EOF`, or any other error. -/
inductive IOErr where
  | EOF
  | other (msg : String)
  deriving DecidableEq, Repr

/-- What one call `src.Read(buf)` returns: the bytes `buf[0:nr]` and `er`. -/
structure ReadResult where
  data : List Byte
  err : Option IOErr
  deriving DecidableEq, Repr

/-- What one call `dst.Write(p)` returns: the count `nw` and `ew`. -/
structure WriteResult where
  nw : Int
  ew : Option IOErr
  deriving DecidableEq, Repr

/-- One step of a copy worker. -/
inductive CopyEvent where
  /-- Call of `src.Read(buf)` that returned `r`. -/
  | read (r : ReadResult)
  /-- Call of `dst.Write(p)` that returned `w`. -/
  | write (p : List Byte) (w : WriteResult)
  /-- Send `doneCh <- true`. -/
  | send
  deriving DecidableEq, Repr

/-- The error `errInvalidWrite` of package `io`. -/
def errInvalidWrite : IOErr := .other "invalid write result"

/-- The copy loop of the standard library behind `io.Copy(dst, src)`.  The
reader is a script: the results its successive `Read` calls return; a script
that runs out stands for a `Read` that never returns.  The writer is an oracle:
`dst k p` is what the `k`-th call `Write(p)` returns.  The result is the calls
made, and whether `io.Copy` returned.  The byte count and the error `io.Copy`
returns are dropped, as `copyWorker` drops them. -/
def ioCopy (dst : Nat → List Byte → WriteResult) : Nat → List ReadResult → List CopyEvent × Bool
  | _, [] => ([], false)
  | k, r :: src =>
    if 0 < r.data.length then
      let w := dst k r.data
      let invalid : Bool := decide (w.nw < 0 ∨ (r.data.length : Int) < w.nw)
      let nw : Int := if invalid then 0 else w.nw
      let ew : Option IOErr := if invalid && w.ew.isNone then some errInvalidWrite else w.ew
      if ew.isSome then ([.read r, .write r.data w], true)
      else if (r.data.length : Int) ≠ nw then ([.read r, .write r.data w], true)
      else if r.err.isSome then ([.read r, .write r.data w], true)
      else
        let rest := ioCopy dst (k + 1) src
        (.read r :: .write r.data w :: rest.1, rest.2)
    else if r.err.isSome then ([.read r], true)
    else
      let rest := ioCopy dst k src
      (.read r :: rest.1, rest.2)

/-- The function `copyWorker(dst, src, doneCh)`: `io.Copy(dst, src)`, then
`doneCh <- true`.  The result is the steps of the worker, and whether it
reached its last statement. -/
def copyWorker (dst : Nat → List Byte → WriteResult) (src : List ReadResult) :
    List CopyEvent × Bool :=
  let c := ioCopy dst 0 src
  if c.2 then (c.1 ++ [.send], true) else (c.1, false)

/-- The bytes the destination took, in order: of each `Write(p)` that returned
the count `nw`, the first `nw` bytes of `p`. -/
def bytesWritten : List CopyEvent → List Byte
  | [] => []
  | .write p w :: t => p.take w.nw.toNat ++ bytesWritten t
  | _ :: t => bytesWritten t

/-- The bytes the source delivered, in order. -/
def bytesRead : List CopyEvent → List Byte
  | [] => []
  | .read r :: t => r.data ++ bytesRead t
  | _ :: t => bytesRead t

/-- The bytes a reader script delivers: the data of its results up to and
including the first one that carries an error (`io.EOF` or another); no `Read`
is made after that one. -/
def delivered : List ReadResult → List Byte
  | [] => []
  | r :: src => if r.err.isSome then r.data else r.data ++ delivered src

/-- A writer that returns no error and keeps the contract of `io.Writer` (a
count short of the length comes with an error). -/
def Faithful (dst : Nat → List Byte → WriteResult) : Prop :=
  (∀ k p, (dst k p).ew = none) ∧ (∀ k p, (dst k p).ew = none → (dst k p).nw = p.length)

/-- A writer that takes every byte it is given and returns no error. -/
def fullWriter : Nat → List Byte → WriteResult := fun _ p => ⟨p.length, none⟩

/-! ## The relay phase: goroutines and the completion channel -/

/-- Where a copy worker goroutine is: inside `io.Copy`, blocked at (or about to
reach) the send `doneCh <- true`, or past it (the goroutine has ended). -/
inductive WorkerState where
  | copying
  | sending
  | done
  deriving DecidableEq, Repr

/-- A session while its handler runs: the actions the handler has still to
perform, the goroutines started so far, how often each connection has been
closed, how many values have been received from `doneCh`, and whether the
handler has returned. -/
structure Sys where
  handler : List Action
  workers : List WorkerState
  connClosed : Nat
  wsClosed : Nat
  received : Nat
  returned : Bool
  deriving DecidableEq, Repr

/-- The session as a handler with the action sequence `tr` starts. -/
def Sys.init (tr : List Action) : Sys :=
  { handler := tr, workers := [], connClosed := 0, wsClosed := 0, received := 0, returned := false }

/-- What the scheduler lets happen next. -/
inductive Choice where
  /-- The handler performs its next action (which is not a receive). -/
  | handler
  /-- The call of `io.Copy` in worker `i` returns. -/
  | copyReturns (i : Nat)
  /-- The send of worker `i` meets the receive the handler is at. -/
  | recvFrom (i : Nat)
  deriving DecidableEq, Repr

/-- One step of the session.  `doneCh` is unbuffered: a receive happens only
together with the send of a worker that is at its send.  `none`: the choice is
not enabled. -/
def step (s : Sys) : Choice → Option Sys
  | .copyReturns i =>
    if s.workers.get? i = some .copying then
      some { s with workers := s.workers.set i .sending }
    else none
  | .recvFrom i =>
    match s.handler with
    | .recv :: rest =>
      if s.workers.get? i = some .sending then
        some { s with handler := rest, workers := s.workers.set i .done,
                      received := s.received + 1 }
      else none
    | _ => none
  | .handler =>
    match s.handler with
    | [] => none
    | .recv :: _ => none
    | .go _ _ :: rest => some { s with handler := rest, workers := s.workers ++ [.copying] }
    | .close .conn :: rest => some { s with handler := rest, connClosed := s.connClosed + 1 }
    | .close .ws :: rest => some { s with handler := rest, wsClosed := s.wsClosed + 1 }
    | .ret :: _ => some { s with handler := [], returned := true }
    | .indexPanic :: _ => some { s with handler := [] }
    | _ :: rest => some { s with handler := rest }

/-- The session after the scheduler's choices `sched`, from `s`; `none` when
one of the choices is not enabled where it is made. -/
def run (s : Sys) : List Choice → Option Sys
  | [] => some s
  | c :: sched => (step s c).bind (fun s1 => run s1 sched)

/-- Actions of a handler that start no goroutine, touch no channel, close no
connection and do not end the handler. -/
def inert : Action → Bool
  | .dial _ _ => true
  | .newConfig _ _ => true
  | .dialConfig _ => true
  | .logError _ => true
  | .setPayloadType _ => true
  | .makeChan => true
  | _ => false

/-- What the specification asks of every state of a session: a connection is
closed only once a copy worker has ended; the handler has returned only once
two completion signals have been received, both workers have ended and each
connection has been closed once; no connection is closed twice; there are at
most two workers; and every completion signal received is the one send of a
worker that has ended. -/
def Safe (s : Sys) : Prop :=
  ((0 < s.connClosed ∨ 0 < s.wsClosed) → WorkerState.done ∈ s.workers) ∧
  (s.returned = true →
    s.received = 2 ∧ s.workers = [.done, .done] ∧ s.connClosed = 1 ∧ s.wsClosed = 1) ∧
  s.connClosed ≤ 1 ∧ s.wsClosed ≤ 1 ∧ s.workers.length ≤ 2 ∧
  s.received = s.workers.count .done

/-- Two workers, exactly one of which has ended. -/
def OneDone (ws : List WorkerState) : Prop :=
  ∃ w, w ≠ WorkerState.done ∧ (ws = [.done, w] ∨ ws = [w, .done])

/-- The states a session passes through, phase by phase. -/
inductive Inv : Sys → Prop where
  | setup (pre : List Action) (h : ∀ a ∈ pre, inert a = true) :
      Inv ⟨pre ++ [.go .conn .ws, .go .ws .conn, .recv, .close .conn, .close .ws, .recv, .ret],
        [], 0, 0, 0, false⟩
  | oneStarted (w : WorkerState) (hw : w ≠ .done) :
      Inv ⟨[.go .ws .conn, .recv, .close .conn, .close .ws, .recv, .ret], [w], 0, 0, 0, false⟩
  | bothStarted (w1 w2 : WorkerState) (h1 : w1 ≠ .done) (h2 : w2 ≠ .done) :
      Inv ⟨[.recv, .close .conn, .close .ws, .recv, .ret], [w1, w2], 0, 0, 0, false⟩
  | firstDone (ws : List WorkerState) (h : OneDone ws) :
      Inv ⟨[.close .conn, .close .ws, .recv, .ret], ws, 0, 0, 1, false⟩
  | connClosed (ws : List WorkerState) (h : OneDone ws) :
      Inv ⟨[.close .ws, .recv, .ret], ws, 1, 0, 1, false⟩
  | bothClosed (ws : List WorkerState) (h : OneDone ws) :
      Inv ⟨[.recv, .ret], ws, 1, 1, 1, false⟩
  | secondDone : Inv ⟨[.ret], [.done, .done], 1, 1, 2, false⟩
  | returned : Inv ⟨[], [.done, .done], 1, 1, 2, true⟩

/-- A trace of one of the two handlers under the flags `g`. -/
def IsHandlerTrace (g : Globals) (tr : List Action) : Prop :=
  (∃ d protocol, tr = wsRelayHandler g d protocol) ∨ (∃ parseErr d, tr = tcpRelayHandle g parseErr d)

/-- A session that is given up: the client connection `client` is closed
exactly once, no copy worker is started, no completion signal is awaited, at
most one dial is made, and the handler returns. -/
def AbortsSession (client : Conn) (tr : List Action) : Prop :=
  closeCount client tr = 1 ∧ goCount tr = 0 ∧ recvCount tr = 0 ∧ dialCount tr ≤ 1 ∧
    tr.getLast? = some .ret

/-- The relay phase as the specification words it: one completion channel, two
copy workers (one per direction), the first completion signal, the close of the
raw connection and of the WebSocket connection, the second completion signal,
the return. -/
def relayPhase : List Action :=
  [.makeChan, .go .conn .ws, .go .ws .conn, .recv, .close .conn, .close .ws, .recv, .ret]

/-! ## Protocol negotiation in forward mode -/

/-- The trace of a forward session whose dial failed. -/
theorem wsRelayHandler_dial_error (g : Globals) (err : String) (protocol : Option (List String)) :
    wsRelayHandler g (.error err) protocol
      = [.dial "tcp" g.targetAddress, .logError (errorLine err), .close .ws, .ret] := rfl

/-- The trace of a forward session whose first offered token differs from the
configured subprotocol, after a dial that succeeded. -/
theorem wsRelayHandler_mismatch (g : Globals) (p0 : String) (rest : List String)
    (h : p0 ≠ g.subprotocols) :
    wsRelayHandler g (.ok ()) (some (p0 :: rest))
      = [.dial "tcp" g.targetAddress, .logError (invalidLine g.subprotocols),
         .close .ws, .close .conn, .ret] := by
  simp [wsRelayHandler, h]

/-- The trace of a forward session whose first offered token is the configured
subprotocol, after a dial that succeeded. -/
theorem wsRelayHandler_match (g : Globals) (rest : List String) :
    wsRelayHandler g (.ok ()) (some (g.subprotocols :: rest))
      = Action.dial "tcp" g.targetAddress ::
        ((if g.binaryMode then [Action.setPayloadType BinaryFrame] else []) ++ relayPhase) := by
  simp [wsRelayHandler, relayPhase]

/-- The trace of a forward session whose client offered no protocol, after a
dial that succeeded. -/
theorem wsRelayHandler_nil (g : Globals) :
    wsRelayHandler g (.ok ()) none
      = Action.dial "tcp" g.targetAddress ::
        ((if g.binaryMode then [Action.setPayloadType BinaryFrame] else []) ++ relayPhase) := by
  simp [wsRelayHandler, relayPhase]

/-- C1, as stated, fails: with the expected subprotocol `"echo-v1"` and the
offer `"other"`, the handler has dialed the target (once, as its first action)
before it rejects the session. -/
theorem c1_counterexample_dial_before_reject :
    ("echo-v1" ≠ "" ∧ "other" ≠ "echo-v1") ∧
    wsRelayHandler ⟨"127.0.0.1:9000", false, false, "echo-v1"⟩ (.ok ()) (some ["other"])
      = [.dial "tcp" "127.0.0.1:9000", .logError "[ERROR] invalid \x27echo-v1\x27\n",
         .close .ws, .close .conn, .ret] ∧
    ¬ dialCount (wsRelayHandler ⟨"127.0.0.1:9000", false, false, "echo-v1"⟩ (.ok ())
        (some ["other"])) = 0 := by
  decide

/-- C1, amended: in forward mode the dial of the target is the first action of
the handler and happens exactly once, before the offered protocol is looked at.
When the first offered token differs from the configured subprotocol the
session is rejected after that dial: no copy worker is started, no completion
signal is awaited, the client connection is closed exactly once and the handler
returns; when the dial had succeeded the dialed peer connection is closed too. -/
theorem wsRelayHandler_rejects_after_dial (g : Globals) (d : Except String Unit)
    (p0 : String) (rest : List String) (h : p0 ≠ g.subprotocols) :
    (wsRelayHandler g d (some (p0 :: rest))).head? = some (.dial "tcp" g.targetAddress) ∧
    dialCount (wsRelayHandler g d (some (p0 :: rest))) = 1 ∧
    goCount (wsRelayHandler g d (some (p0 :: rest))) = 0 ∧
    recvCount (wsRelayHandler g d (some (p0 :: rest))) = 0 ∧
    closeCount .ws (wsRelayHandler g d (some (p0 :: rest))) = 1 ∧
    (wsRelayHandler g d (some (p0 :: rest))).getLast? = some .ret ∧
    wsRelayHandler g (.ok ()) (some (p0 :: rest))
      = [.dial "tcp" g.targetAddress, .logError (invalidLine g.subprotocols),
         .close .ws, .close .conn, .ret] := by
  have hm := wsRelayHandler_mismatch g p0 rest h
  rcases d with err | ⟨⟨⟩⟩
  · rw [wsRelayHandler_dial_error, hm]
    simp [dialCount, goCount, recvCount, closeCount]
  · rw [hm]
    simp [dialCount, goCount, recvCount, closeCount]

/-- Instance of `wsRelayHandler_rejects_after_dial`: expected `"echo-v1"`,
offered `"other"`. -/
theorem wsRelayHandler_rejects_after_dial_witness :
    "other" ≠ "echo-v1" ∧
    dialCount (wsRelayHandler ⟨"127.0.0.1:9000", false, false, "echo-v1"⟩ (.ok ())
      (some ["other"])) = 1 ∧
    goCount (wsRelayHandler ⟨"127.0.0.1:9000", false, false, "echo-v1"⟩ (.ok ())
      (some ["other"])) = 0 :=
  ⟨by decide,
   (wsRelayHandler_rejects_after_dial ⟨"127.0.0.1:9000", false, false, "echo-v1"⟩ (.ok ())
      "other" [] (by decide)).2.1,
   (wsRelayHandler_rejects_after_dial ⟨"127.0.0.1:9000", false, false, "echo-v1"⟩ (.ok ())
      "other" [] (by decide)).2.2.1⟩

/-- C2, as stated, fails: with no expected subprotocol configured (the empty
string) and the offer `"foo"`, the mismatch branch is taken and no copy worker
is started. -/
theorem c2_counterexample_empty_expected_rejects :
    wsRelayHandler ⟨"127.0.0.1:9000", false, false, ""⟩ (.ok ()) (some ["foo"])
      = [.dial "tcp" "127.0.0.1:9000", .logError "[ERROR] invalid \x27\x27\n",
         .close .ws, .close .conn, .ret] ∧
    goCount (wsRelayHandler ⟨"127.0.0.1:9000", false, false, ""⟩ (.ok ()) (some ["foo"])) = 0 ∧
    ¬ relayPhase <:+ wsRelayHandler ⟨"127.0.0.1:9000", false, false, ""⟩ (.ok ())
        (some ["foo"]) := by
  decide

/-- C2, amended: with no expected subprotocol configured (the empty string),
and the dial succeeding, the session proceeds to relaying when the client
offered no protocol at all and when the first offered token is the empty
string; a client whose first offered token is not empty is rejected by the
mismatch branch. -/
theorem wsRelayHandler_empty_expected (g : Globals) (h : g.subprotocols = "") :
    wsRelayHandler g (.ok ()) none
      = Action.dial "tcp" g.targetAddress ::
        ((if g.binaryMode then [Action.setPayloadType BinaryFrame] else []) ++ relayPhase) ∧
    (∀ rest : List String, wsRelayHandler g (.ok ()) (some ("" :: rest))
      = Action.dial "tcp" g.targetAddress ::
        ((if g.binaryMode then [Action.setPayloadType BinaryFrame] else []) ++ relayPhase)) ∧
    (∀ (p0 : String) (rest : List String), p0 ≠ "" →
      wsRelayHandler g (.ok ()) (some (p0 :: rest))
        = [.dial "tcp" g.targetAddress, .logError (invalidLine ""),
           .close .ws, .close .conn, .ret]) := by
  refine ⟨wsRelayHandler_nil g, ?_, ?_⟩
  · intro rest
    have hm := wsRelayHandler_match g rest
    rw [h] at hm
    exact hm
  · intro p0 rest hp
    have hm := wsRelayHandler_mismatch g p0 rest (by rw [h]; exact hp)
    rw [h] at hm
    exact hm

/-- Instance of `wsRelayHandler_empty_expected`: nothing configured, nothing
offered, text frames. -/
theorem wsRelayHandler_empty_expected_witness :
    wsRelayHandler ⟨"127.0.0.1:9000", false, false, ""⟩ (.ok ()) none
      = [.dial "tcp" "127.0.0.1:9000", .makeChan, .go .conn .ws, .go .ws .conn, .recv,
         .close .conn, .close .ws, .recv, .ret] :=
  (wsRelayHandler_empty_expected ⟨"127.0.0.1:9000", false, false, ""⟩ rfl).1

/-- C3, as stated, fails: with the expected subprotocol `"echo-v1"` and a client
that offered no protocol (nil list), the session is not rejected: both copy
workers are started and nothing is logged. -/
theorem c3_counterexample_nil_offer_relays :
    "echo-v1" ≠ "" ∧
    wsRelayHandler ⟨"127.0.0.1:9000", false, false, "echo-v1"⟩ (.ok ()) none
      = [.dial "tcp" "127.0.0.1:9000", .makeChan, .go .conn .ws, .go .ws .conn, .recv,
         .close .conn, .close .ws, .recv, .ret] ∧
    ¬ goCount (wsRelayHandler ⟨"127.0.0.1:9000", false, false, "echo-v1"⟩ (.ok ()) none) = 0 := by
  decide

/-- C3, amended: when the client offered no protocol value at all (nil list),
the comparison with the expected subprotocol is skipped, whatever subprotocol
is configured: given the dial succeeds, nothing is logged, both copy workers
are started and the session runs the relay phase. -/
theorem wsRelayHandler_nil_offer_relays (g : Globals) :
    wsRelayHandler g (.ok ()) none
      = Action.dial "tcp" g.targetAddress ::
        ((if g.binaryMode then [Action.setPayloadType BinaryFrame] else []) ++ relayPhase) ∧
    goCount (wsRelayHandler g (.ok ()) none) = 2 ∧
    (∀ msg : String, Action.logError msg ∉ wsRelayHandler g (.ok ()) none) := by
  refine ⟨wsRelayHandler_nil g, ?_, ?_⟩
  · rw [wsRelayHandler_nil]
    cases g.binaryMode <;> simp [goCount, relayPhase]
  · intro msg
    rw [wsRelayHandler_nil]
    cases g.binaryMode <;> simp [relayPhase]

/-- C7: for a non-empty offered list the handler compares its first element with
the configured subprotocol and nothing else.  The trace does not depend on the
later elements; after a successful dial the session runs the relay phase if and
only if the first element equals the configured subprotocol, and is rejected by
the mismatch branch otherwise. -/
theorem wsRelayHandler_checks_first_token_only (g : Globals) (p0 : String) (rest : List String) :
    (∀ d : Except String Unit,
      wsRelayHandler g d (some (p0 :: rest)) = wsRelayHandler g d (some [p0])) ∧
    (relayPhase <:+ wsRelayHandler g (.ok ()) (some (p0 :: rest)) ↔ p0 = g.subprotocols) ∧
    (goCount (wsRelayHandler g (.ok ()) (some (p0 :: rest))) = 2 ↔ p0 = g.subprotocols) ∧
    (wsRelayHandler g (.ok ()) (some (p0 :: rest))
        = [.dial "tcp" g.targetAddress, .logError (invalidLine g.subprotocols),
           .close .ws, .close .conn, .ret] ↔ p0 ≠ g.subprotocols) := by
  by_cases h : p0 = g.subprotocols
  · subst h
    refine ⟨fun d => ?_, ?_, ?_, ?_⟩
    · rcases d with err | ⟨⟨⟩⟩
      · rfl
      · rw [wsRelayHandler_match, wsRelayHandler_match]
    · rw [wsRelayHandler_match]
      simp only [iff_true]
      exact ⟨Action.dial "tcp" g.targetAddress ::
        (if g.binaryMode then [Action.setPayloadType BinaryFrame] else []), by simp⟩
    · rw [wsRelayHandler_match]
      cases g.binaryMode <;> simp [goCount, relayPhase]
    · rw [wsRelayHandler_match]
      cases g.binaryMode <;> simp [relayPhase]
  · have hm := wsRelayHandler_mismatch g p0 rest h
    refine ⟨fun d => ?_, ?_, ?_, ?_⟩
    · rcases d with err | ⟨⟨⟩⟩
      · rfl
      · rw [hm, wsRelayHandler_mismatch g p0 [] h]
    · rw [hm]
      simp only [h, iff_false]
      intro hs
      have := hs.length_le
      simp [relayPhase] at this
    · rw [hm]
      simp [goCount, h]
    · rw [hm]
      simp [h]

/-! ## Reverse mode: the connection request -/

/-- The library call `websocket.NewConfig` succeeds exactly when the URL parser
accepts both strings, and then holds them. -/
theorem NewConfig_eq_ok (parseErr : String → Option String) (server origin : String)
    (h1 : parseErr server = none) (h2 : parseErr origin = none) :
    NewConfig parseErr server origin
      = .ok { Location := server, Origin := origin, Protocol := none, TlsConfig := none } := by
  simp [NewConfig, h1, h2]

/-- When `websocket.NewConfig` succeeds the URL parser has accepted both strings. -/
theorem NewConfig_ok_inv (parseErr : String → Option String) (server origin : String)
    (c : WsConfig) (h : NewConfig parseErr server origin = .ok c) :
    parseErr server = none ∧ parseErr origin = none := by
  unfold NewConfig at h
  cases h1 : parseErr server <;> cases h2 : parseErr origin <;> simp [h1, h2] at h ⊢

/-- The trace of a reverse session whose connection request could not be built. -/
theorem tcpRelayHandle_config_error (g : Globals) (parseErr : String → Option String)
    (d : Except String Unit) (err : String)
    (h : NewConfig parseErr (wsAddr g) (origAddr g) = .error err) :
    tcpRelayHandle g parseErr d
      = [.newConfig (wsAddr g) (origAddr g), .logError (errorLine err), .close .conn, .ret] := by
  simp [tcpRelayHandle, h]

/-- The trace of a reverse session whose dial failed. -/
theorem tcpRelayHandle_dial_error (g : Globals) (parseErr : String → Option String)
    (err : String) (h1 : parseErr (wsAddr g) = none) (h2 : parseErr (origAddr g) = none) :
    tcpRelayHandle g parseErr (.error err)
      = [.newConfig (wsAddr g) (origAddr g),
         .dialConfig { Location := wsAddr g, Origin := origAddr g,
                       Protocol := some [g.subprotocols],
                       TlsConfig := some { InsecureSkipVerify := true } },
         .logError (errorLine err), .close .conn, .ret] := by
  simp [tcpRelayHandle, NewConfig_eq_ok parseErr _ _ h1 h2]

/-- The trace of a reverse session whose dial succeeded. -/
theorem tcpRelayHandle_ok (g : Globals) (parseErr : String → Option String)
    (h1 : parseErr (wsAddr g) = none) (h2 : parseErr (origAddr g) = none) :
    tcpRelayHandle g parseErr (.ok ())
      = Action.newConfig (wsAddr g) (origAddr g) ::
        Action.dialConfig { Location := wsAddr g, Origin := origAddr g,
                            Protocol := some [g.subprotocols],
                            TlsConfig := some { InsecureSkipVerify := true } } ::
        ((if g.binaryMode then [Action.setPayloadType BinaryFrame] else []) ++ relayPhase) := by
  simp [tcpRelayHandle, NewConfig_eq_ok parseErr _ _ h1 h2, relayPhase]

/-- The configurations a reverse session dials: none when the connection
request could not be built, else the one built from the flags. -/
theorem dialedConfigs_tcpRelayHandle (g : Globals) (parseErr : String → Option String)
    (d : Except String Unit) :
    dialedConfigs (tcpRelayHandle g parseErr d)
      = if parseErr (wsAddr g) = none ∧ parseErr (origAddr g) = none then
          [{ Location := wsAddr g, Origin := origAddr g, Protocol := some [g.subprotocols],
             TlsConfig := some { InsecureSkipVerify := true } }]
        else [] := by
  by_cases h : parseErr (wsAddr g) = none ∧ parseErr (origAddr g) = none
  · rw [if_pos h]
    rcases d with err | ⟨⟨⟩⟩
    · rw [tcpRelayHandle_dial_error g parseErr err h.1 h.2]
      simp [dialedConfigs]
    · rw [tcpRelayHandle_ok g parseErr h.1 h.2]
      cases g.binaryMode <;> simp [dialedConfigs, relayPhase]
  · rw [if_neg h]
    cases hc : NewConfig parseErr (wsAddr g) (origAddr g) with
    | error err =>
      rw [tcpRelayHandle_config_error g parseErr d err hc]
      simp [dialedConfigs]
    | ok c => exact absurd (NewConfig_ok_inv parseErr _ _ c hc) h

/-- C6: in reverse mode the connection request is built for the URL `ws://t`
(origin `http://t`) when encryption is disabled and `wss://t` (origin
`https://t`) when it is enabled, `t` the target address; every request that is
dialed has that location and origin and offers exactly the one-element protocol
list made of the configured subprotocol; and one request is dialed whenever the
URL parser accepts the two strings. -/
theorem tcpRelayHandle_request (g : Globals) (parseErr : String → Option String)
    (d : Except String Unit) :
    (tcpRelayHandle g parseErr d).head?
      = some (.newConfig ((if g.tlsEnable then "wss://" else "ws://") ++ g.targetAddress)
          ((if g.tlsEnable then "https://" else "http://") ++ g.targetAddress)) ∧
    (∀ c ∈ dialedConfigs (tcpRelayHandle g parseErr d),
      c.Location = (if g.tlsEnable then "wss://" else "ws://") ++ g.targetAddress ∧
      c.Origin = (if g.tlsEnable then "https://" else "http://") ++ g.targetAddress ∧
      c.Protocol = some [g.subprotocols]) ∧
    (parseErr (wsAddr g) = none → parseErr (origAddr g) = none →
      (dialedConfigs (tcpRelayHandle g parseErr d)).length = 1) := by
  refine ⟨?_, ?_, ?_⟩
  · cases hg : g.tlsEnable <;> simp [tcpRelayHandle, wsAddr, origAddr, hg]
  · intro c hc
    rw [dialedConfigs_tcpRelayHandle] at hc
    split at hc
    · simp only [List.mem_singleton] at hc
      subst hc
      cases hg : g.tlsEnable <;> simp [wsAddr, origAddr, hg]
    · simp at hc
  · intro h1 h2
    rw [dialedConfigs_tcpRelayHandle, if_pos ⟨h1, h2⟩]
    rfl

/-- Instance of `tcpRelayHandle_request`: target `host:9000`, encryption
disabled; the request dialed is for `ws://host:9000`. -/
theorem tcpRelayHandle_request_witness :
    dialedConfigs (tcpRelayHandle ⟨"host:9000", false, false, "echo-v1"⟩ (fun _ => none) (.ok ()))
      = [{ Location := "ws://host:9000", Origin := "http://host:9000",
           Protocol := some ["echo-v1"], TlsConfig := some { InsecureSkipVerify := true } }] ∧
    (dialedConfigs (tcpRelayHandle ⟨"host:9000", false, false, "echo-v1"⟩ (fun _ => none)
      (.ok ()))).length = 1 :=
  ⟨by decide,
   (tcpRelayHandle_request ⟨"host:9000", false, false, "echo-v1"⟩ (fun _ => none) (.ok ())).2.2
     rfl rfl⟩

/-- C9: in reverse mode with encryption enabled, every connection request that
is dialed carries a TLS configuration whose `InsecureSkipVerify` is true (the
peer certificate is not validated), whatever the target address and the other
flags; and such a request is dialed whenever the URL parser accepts the two
strings. -/
theorem tcpRelayHandle_skips_certificate_check (g : Globals)
    (parseErr : String → Option String) (d : Except String Unit) (h : g.tlsEnable = true) :
    (∀ c ∈ dialedConfigs (tcpRelayHandle g parseErr d),
      c.TlsConfig = some { InsecureSkipVerify := true } ∧
      c.Location = "wss://" ++ g.targetAddress) ∧
    (parseErr (wsAddr g) = none → parseErr (origAddr g) = none →
      ∃ c, dialedConfigs (tcpRelayHandle g parseErr d) = [c]) := by
  refine ⟨?_, ?_⟩
  · intro c hc
    rw [dialedConfigs_tcpRelayHandle] at hc
    split at hc
    · simp only [List.mem_singleton] at hc
      subst hc
      simp [wsAddr, h]
    · simp at hc
  · intro h1 h2
    rw [dialedConfigs_tcpRelayHandle, if_pos ⟨h1, h2⟩]
    exact ⟨_, rfl⟩

/-- Instance of `tcpRelayHandle_skips_certificate_check`: target `host:9000`,
encryption enabled. -/
theorem tcpRelayHandle_skips_certificate_check_witness :
    dialedConfigs (tcpRelayHandle ⟨"host:9000", false, true, ""⟩ (fun _ => none) (.ok ()))
      = [{ Location := "wss://host:9000", Origin := "https://host:9000", Protocol := some [""],
           TlsConfig := some { InsecureSkipVerify := true } }] ∧
    ∀ c ∈ dialedConfigs (tcpRelayHandle ⟨"host:9000", false, true, ""⟩ (fun _ => none) (.ok ())),
      c.TlsConfig = some { InsecureSkipVerify := true } ∧ c.Location = "wss://" ++ "host:9000" :=
  ⟨by decide,
   (tcpRelayHandle_skips_certificate_check ⟨"host:9000", false, true, ""⟩ (fun _ => none)
      (.ok ()) rfl).1⟩

/-! ## Dial failure -/

/-- C5: a session whose peer dial fails is given up.  In forward mode (`net.Dial`
fails) the client connection `ws` is closed exactly once, exactly one dial has
been made, no copy worker is started, no completion signal is awaited and the
handler returns.  In reverse mode the same holds for the client connection
`conn`, both when `websocket.NewConfig` fails (no dial is made at all) and when
`websocket.DialConfig` fails (one dial, not repeated). -/
theorem dial_failure_aborts_session (g : Globals) :
    (∀ (err : String) (protocol : Option (List String)),
      AbortsSession .ws (wsRelayHandler g (.error err) protocol) ∧
      dialCount (wsRelayHandler g (.error err) protocol) = 1 ∧
      closeCount .conn (wsRelayHandler g (.error err) protocol) = 0) ∧
    (∀ (parseErr : String → Option String) (d : Except String Unit) (err : String),
      NewConfig parseErr (wsAddr g) (origAddr g) = .error err →
      AbortsSession .conn (tcpRelayHandle g parseErr d) ∧
      dialCount (tcpRelayHandle g parseErr d) = 0 ∧
      closeCount .ws (tcpRelayHandle g parseErr d) = 0) ∧
    (∀ (parseErr : String → Option String) (err : String),
      parseErr (wsAddr g) = none → parseErr (origAddr g) = none →
      AbortsSession .conn (tcpRelayHandle g parseErr (.error err)) ∧
      dialCount (tcpRelayHandle g parseErr (.error err)) = 1 ∧
      closeCount .ws (tcpRelayHandle g parseErr (.error err)) = 0) := by
  refine ⟨?_, ?_, ?_⟩
  · intro err protocol
    rw [wsRelayHandler_dial_error]
    simp [AbortsSession, closeCount, goCount, recvCount, dialCount]
  · intro parseErr d err h
    rw [tcpRelayHandle_config_error g parseErr d err h]
    simp [AbortsSession, closeCount, goCount, recvCount, dialCount]
  · intro parseErr err h1 h2
    rw [tcpRelayHandle_dial_error g parseErr err h1 h2]
    simp [AbortsSession, closeCount, goCount, recvCount, dialCount]

/-- Instance of `dial_failure_aborts_session`: a refused dial in forward mode,
and a refused dial in reverse mode. -/
theorem dial_failure_aborts_session_witness :
    wsRelayHandler ⟨"127.0.0.1:9000", false, false, ""⟩ (.error "connection refused") none
      = [.dial "tcp" "127.0.0.1:9000", .logError "[ERROR] connection refused\n",
         .close .ws, .ret] ∧
    AbortsSession .ws
      (wsRelayHandler ⟨"127.0.0.1:9000", false, false, ""⟩ (.error "connection refused") none) ∧
    AbortsSession .conn
      (tcpRelayHandle ⟨"host:9000", false, false, ""⟩ (fun _ => none)
        (.error "connection refused")) :=
  ⟨by decide,
   ((dial_failure_aborts_session ⟨"127.0.0.1:9000", false, false, ""⟩).1
      "connection refused" none).1,
   ((dial_failure_aborts_session ⟨"host:9000", false, false, ""⟩).2.2 (fun _ => none)
      "connection refused" rfl rfl).1⟩

/-! ## The relay phase -/

/-- A handler trace in which a copy worker is started is the dial (forward
mode), or the building and the dial of the connection request (reverse mode),
then the frame-type assignment under `binaryMode`, then the relay phase. -/
theorem relay_trace_shape (g : Globals) (tr : List Action) (hsrc : IsHandlerTrace g tr)
    (hgo : 0 < goCount tr) :
    ∃ pre, tr = pre ++
        ((if g.binaryMode then [Action.setPayloadType BinaryFrame] else []) ++ relayPhase) ∧
      (pre = [.dial "tcp" g.targetAddress] ∨
       pre = [.newConfig (wsAddr g) (origAddr g),
              .dialConfig { Location := wsAddr g, Origin := origAddr g,
                            Protocol := some [g.subprotocols],
                            TlsConfig := some { InsecureSkipVerify := true } }]) := by
  rcases hsrc with ⟨d, protocol, rfl⟩ | ⟨parseErr, d, rfl⟩
  · refine ⟨[.dial "tcp" g.targetAddress], ?_, Or.inl rfl⟩
    rcases d with err | ⟨⟨⟩⟩
    · rw [wsRelayHandler_dial_error] at hgo
      simp [goCount] at hgo
    · rcases protocol with _ | ⟨_ | ⟨p0, rest⟩⟩
      · rw [wsRelayHandler_nil]; rfl
      · simp [wsRelayHandler, goCount] at hgo
      · by_cases h : p0 = g.subprotocols
        · subst h
          rw [wsRelayHandler_match]; rfl
        · rw [wsRelayHandler_mismatch g p0 rest h] at hgo
          simp [goCount] at hgo
  · refine ⟨_, ?_, Or.inr rfl⟩
    cases hc : NewConfig parseErr (wsAddr g) (origAddr g) with
    | error err =>
      rw [tcpRelayHandle_config_error g parseErr d err hc] at hgo
      simp [goCount] at hgo
    | ok c =>
      obtain ⟨h1, h2⟩ := NewConfig_ok_inv parseErr _ _ c hc
      rcases d with err | ⟨⟨⟩⟩
      · rw [tcpRelayHandle_dial_error g parseErr err h1 h2] at hgo
        simp [goCount] at hgo
      · rw [tcpRelayHandle_ok g parseErr h1 h2]; rfl

/-- C8: in every session of either handler that starts a copy worker, the frame
type of the WebSocket connection is assigned `BinaryFrame` if and only if
`binaryMode` is set, and nothing else is ever assigned to it; the value it has
when each of the two copy workers is started, and at the end, is `BinaryFrame`
under `binaryMode` and the value `pt` it had on entry otherwise.  For the
library default `TextFrame` it ends as `BinaryFrame` exactly under
`binaryMode`. -/
theorem payloadType_binary_iff_binaryMode (g : Globals) (pt : Nat) (tr : List Action)
    (hsrc : IsHandlerTrace g tr) (hgo : 0 < goCount tr) :
    (Action.setPayloadType BinaryFrame ∈ tr ↔ g.binaryMode = true) ∧
    (∀ t, Action.setPayloadType t ∈ tr → t = BinaryFrame) ∧
    payloadTypeAtGo pt tr
      = [if g.binaryMode then BinaryFrame else pt, if g.binaryMode then BinaryFrame else pt] ∧
    payloadTypeAfter pt tr = (if g.binaryMode then BinaryFrame else pt) ∧
    (payloadTypeAfter TextFrame tr = BinaryFrame ↔ g.binaryMode = true) := by
  obtain ⟨pre, rfl, hpre | hpre⟩ := relay_trace_shape g tr hsrc hgo <;> subst hpre <;>
    cases g.binaryMode <;>
    simp [relayPhase, payloadTypeAtGo, payloadTypeAfter, TextFrame, BinaryFrame]

/-- Instance of `payloadType_binary_iff_binaryMode`: a forward session in
binary mode, the connection entering with the default `TextFrame`. -/
theorem payloadType_binary_iff_binaryMode_witness :
    payloadTypeAtGo TextFrame
      (wsRelayHandler ⟨"127.0.0.1:9000", true, false, ""⟩ (.ok ()) none)
      = [BinaryFrame, BinaryFrame] ∧
    payloadTypeAtGo TextFrame
      (tcpRelayHandle ⟨"host:9000", false, false, ""⟩ (fun _ => none) (.ok ()))
      = [TextFrame, TextFrame] :=
  ⟨(payloadType_binary_iff_binaryMode ⟨"127.0.0.1:9000", true, false, ""⟩ TextFrame _
      (Or.inl ⟨.ok (), none, rfl⟩) (by decide)).2.2.1,
   (payloadType_binary_iff_binaryMode ⟨"host:9000", false, false, ""⟩ TextFrame _
      (Or.inr ⟨fun _ => none, .ok (), rfl⟩) (by decide)).2.2.1⟩

/-! ## The relay phase under every schedule -/

theorem step_handler_inert (a : Action) (rest : List Action) (ws : List WorkerState)
    (cc wc rc : Nat) (r : Bool) (ha : inert a = true) :
    step ⟨a :: rest, ws, cc, wc, rc, r⟩ .handler = some ⟨rest, ws, cc, wc, rc, r⟩ := by
  cases a <;> simp [inert] at ha <;> rfl

theorem step_recvFrom_inert (a : Action) (rest : List Action) (ws : List WorkerState)
    (cc wc rc : Nat) (r : Bool) (i : Nat) (ha : inert a = true) :
    step ⟨a :: rest, ws, cc, wc, rc, r⟩ (.recvFrom i) = none := by
  cases a <;> simp [inert] at ha <;> rfl

theorem OneDone_copyReturns {ws : List WorkerState} (h : OneDone ws) (i : Nat)
    (hi : ws.get? i = some .copying) : OneDone (ws.set i .sending) := by
  obtain ⟨w, hw, rfl | rfl⟩ := h
  · rcases i with _ | _ | i
    · simp at hi
    · exact ⟨.sending, by decide, Or.inl (by simp)⟩
    · simp at hi
  · rcases i with _ | _ | i
    · exact ⟨.sending, by decide, Or.inr (by simp)⟩
    · simp at hi
    · simp at hi

theorem OneDone_recvFrom {ws : List WorkerState} (h : OneDone ws) (i : Nat)
    (hi : ws.get? i = some .sending) : ws.set i .done = [.done, .done] := by
  obtain ⟨w, hw, rfl | rfl⟩ := h
  · rcases i with _ | _ | i
    · simp at hi
    · simp
    · simp at hi
  · rcases i with _ | _ | i
    · simp
    · simp at hi
    · simp at hi

/-- Every step of a session keeps it within the phases of `Inv`. -/
theorem Inv_step {s s1 : Sys} {c : Choice} (h : Inv s) (hs : step s c = some s1) : Inv s1 := by
  cases h with
  | setup pre hpre =>
    cases pre with
    | nil =>
      cases c with
      | handler =>
        simp [WsTcpRelay.step] at hs
        subst hs
        exact Inv.oneStarted .copying (by decide)
      | copyReturns i => simp [WsTcpRelay.step] at hs
      | recvFrom i => simp [WsTcpRelay.step] at hs
    | cons a pre1 =>
      have ha : inert a = true := hpre a (by simp)
      cases c with
      | handler =>
        rw [List.cons_append, step_handler_inert _ _ _ _ _ _ _ ha] at hs
        simp only [Option.some.injEq] at hs
        subst hs
        exact Inv.setup pre1 (fun b hb => hpre b (by simp [hb]))
      | copyReturns i => simp [WsTcpRelay.step] at hs
      | recvFrom i =>
        rw [List.cons_append, step_recvFrom_inert _ _ _ _ _ _ _ _ ha] at hs
        simp at hs
  | oneStarted w hw =>
    cases c with
    | handler =>
      simp [WsTcpRelay.step] at hs
      subst hs
      exact Inv.bothStarted w .copying hw (by decide)
    | copyReturns i =>
      rcases i with _ | i
      · simp [WsTcpRelay.step] at hs
        obtain ⟨rfl, rfl⟩ := hs
        exact Inv.oneStarted .sending (by decide)
      · simp [WsTcpRelay.step] at hs
    | recvFrom i => simp [WsTcpRelay.step] at hs
  | bothStarted w1 w2 h1 h2 =>
    cases c with
    | handler => simp [WsTcpRelay.step] at hs
    | copyReturns i =>
      rcases i with _ | _ | i
      · simp [WsTcpRelay.step] at hs
        obtain ⟨rfl, rfl⟩ := hs
        exact Inv.bothStarted .sending w2 (by decide) h2
      · simp [WsTcpRelay.step] at hs
        obtain ⟨rfl, rfl⟩ := hs
        exact Inv.bothStarted w1 .sending h1 (by decide)
      · simp [WsTcpRelay.step] at hs
    | recvFrom i =>
      rcases i with _ | _ | i
      · simp [WsTcpRelay.step] at hs
        obtain ⟨rfl, rfl⟩ := hs
        exact Inv.firstDone _ ⟨w2, h2, Or.inl rfl⟩
      · simp [WsTcpRelay.step] at hs
        obtain ⟨rfl, rfl⟩ := hs
        exact Inv.firstDone _ ⟨w1, h1, Or.inr rfl⟩
      · simp [WsTcpRelay.step] at hs
  | firstDone ws hws =>
    cases c with
    | handler =>
      simp [WsTcpRelay.step] at hs
      subst hs
      exact Inv.connClosed ws hws
    | copyReturns i =>
      simp only [WsTcpRelay.step] at hs
      split at hs
      · rename_i hi
        simp only [Option.some.injEq] at hs
        subst hs
        exact Inv.firstDone _ (OneDone_copyReturns hws i hi)
      · simp at hs
    | recvFrom i => simp [WsTcpRelay.step] at hs
  | connClosed ws hws =>
    cases c with
    | handler =>
      simp [WsTcpRelay.step] at hs
      subst hs
      exact Inv.bothClosed ws hws
    | copyReturns i =>
      simp only [WsTcpRelay.step] at hs
      split at hs
      · rename_i hi
        simp only [Option.some.injEq] at hs
        subst hs
        exact Inv.connClosed _ (OneDone_copyReturns hws i hi)
      · simp at hs
    | recvFrom i => simp [WsTcpRelay.step] at hs
  | bothClosed ws hws =>
    cases c with
    | handler => simp [WsTcpRelay.step] at hs
    | copyReturns i =>
      simp only [WsTcpRelay.step] at hs
      split at hs
      · rename_i hi
        simp only [Option.some.injEq] at hs
        subst hs
        exact Inv.bothClosed _ (OneDone_copyReturns hws i hi)
      · simp at hs
    | recvFrom i =>
      simp only [WsTcpRelay.step] at hs
      split at hs
      · rename_i hi
        simp only [Option.some.injEq] at hs
        subst hs
        simp only [OneDone_recvFrom hws i hi]
        exact Inv.secondDone
      · simp at hs
  | secondDone =>
    cases c with
    | handler =>
      simp [WsTcpRelay.step] at hs
      subst hs
      exact Inv.returned
    | copyReturns i =>
      rcases i with _ | _ | i <;> simp [WsTcpRelay.step] at hs
    | recvFrom i => simp [WsTcpRelay.step] at hs
  | returned =>
    cases c with
    | handler => simp [WsTcpRelay.step] at hs
    | copyReturns i =>
      rcases i with _ | _ | i <;> simp [WsTcpRelay.step] at hs
    | recvFrom i => simp [WsTcpRelay.step] at hs

/-- Every schedule keeps a session within the phases of `Inv`. -/
theorem Inv_run {s s1 : Sys} (h : Inv s) (sched : List Choice) (hr : run s sched = some s1) :
    Inv s1 := by
  induction sched generalizing s with
  | nil =>
    simp [WsTcpRelay.run] at hr
    subst hr
    exact h
  | cons c sched ih =>
    simp only [WsTcpRelay.run] at hr
    cases hc : WsTcpRelay.step s c with
    | none => simp [hc] at hr
    | some s2 =>
      rw [hc] at hr
      exact ih (Inv_step h hc) hr

/-- Every phase of `Inv` is safe. -/
theorem Inv_safe {s : Sys} (h : Inv s) : Safe s := by
  cases h with
  | setup pre hpre => simp [Safe]
  | oneStarted w hw => cases w <;> simp [Safe] at hw ⊢
  | bothStarted w1 w2 h1 h2 => cases w1 <;> cases w2 <;> simp [Safe] at h1 h2 ⊢
  | firstDone ws hws =>
    obtain ⟨w, hw, rfl | rfl⟩ := hws <;> cases w <;> simp [Safe] at hw ⊢
  | connClosed ws hws =>
    obtain ⟨w, hw, rfl | rfl⟩ := hws <;> cases w <;> simp [Safe] at hw ⊢
  | bothClosed ws hws =>
    obtain ⟨w, hw, rfl | rfl⟩ := hws <;> cases w <;> simp [Safe] at hw ⊢
  | secondDone => simp [Safe]
  | returned => simp [Safe]

/-- A session that has not returned is never stuck: the handler can act, or a
copy loop can return, or a pending send can meet the receive of the handler. -/
theorem Inv_enabled {s : Sys} (h : Inv s) (hr : s.returned = false) :
    ∃ c s1, step s c = some s1 := by
  cases h with
  | setup pre hpre =>
    cases pre with
    | nil => exact ⟨.handler, _, rfl⟩
    | cons a pre1 =>
      exact ⟨.handler, _, by
        rw [List.cons_append]
        exact step_handler_inert _ _ _ _ _ _ _ (hpre a (by simp))⟩
  | oneStarted w hw => exact ⟨.handler, _, rfl⟩
  | bothStarted w1 w2 h1 h2 =>
    cases w1 with
    | copying => exact ⟨.copyReturns 0, _, rfl⟩
    | sending => exact ⟨.recvFrom 0, _, rfl⟩
    | done => exact absurd rfl h1
  | firstDone ws hws => exact ⟨.handler, _, rfl⟩
  | connClosed ws hws => exact ⟨.handler, _, rfl⟩
  | bothClosed ws hws =>
    obtain ⟨w, hw, rfl | rfl⟩ := hws
    · cases w with
      | copying => exact ⟨.copyReturns 1, _, rfl⟩
      | sending => exact ⟨.recvFrom 1, _, rfl⟩
      | done => exact absurd rfl hw
    · cases w with
      | copying => exact ⟨.copyReturns 0, _, rfl⟩
      | sending => exact ⟨.recvFrom 0, _, rfl⟩
      | done => exact absurd rfl hw
  | secondDone => exact ⟨.handler, _, rfl⟩
  | returned => simp at hr

/-- A step that changes how often a connection has been closed is a step of
the handler. -/
theorem step_close_by_handler (s s1 : Sys) (c : Choice) (hs : step s c = some s1)
    (hne : s1.connClosed ≠ s.connClosed ∨ s1.wsClosed ≠ s.wsClosed) : c = .handler := by
  cases c with
  | handler => rfl
  | copyReturns i =>
    exfalso
    simp only [step] at hs
    split at hs
    · simp only [Option.some.injEq] at hs
      subst hs
      simp at hne
    · simp at hs
  | recvFrom i =>
    exfalso
    simp only [step] at hs
    split at hs
    · split at hs
      · simp only [Option.some.injEq] at hs
        subst hs
        simp at hne
      · simp at hs
    · simp at hs

/-- C4: in a session of either handler that starts a copy worker, the handler
finishes with exactly the relay phase: it makes one channel, starts the two copy
workers (into `conn` from `ws`, into `ws` from `conn`), receives the first
completion signal, closes `conn`, closes `ws`, receives the second completion
signal and returns; before that it has made no channel, started no worker,
received no signal and closed no connection.  Under every schedule of the handler and its workers
the session is safe at every moment: a connection is closed only by the
handler and only after a worker has ended, never twice, and the handler has
returned only after two completion signals have been received; and some
schedule lets the handler return. -/
theorem relay_phase_sequence (g : Globals) (tr : List Action) (hsrc : IsHandlerTrace g tr)
    (hgo : 0 < goCount tr) :
    (∃ pre, tr = pre ++ relayPhase ∧ goCount pre = 0 ∧ recvCount pre = 0 ∧
      closeCount .conn pre = 0 ∧ closeCount .ws pre = 0 ∧ Action.makeChan ∉ pre ∧
      Action.ret ∉ pre) ∧
    (goCount tr = 2 ∧ recvCount tr = 2 ∧ closeCount .conn tr = 1 ∧ closeCount .ws tr = 1) ∧
    (∀ sched s, run (Sys.init tr) sched = some s → Safe s) ∧
    (∀ sched s c s1, run (Sys.init tr) sched = some s → step s c = some s1 →
      (s1.connClosed ≠ s.connClosed ∨ s1.wsClosed ≠ s.wsClosed) → c = .handler) ∧
    (∃ sched s, run (Sys.init tr) sched = some s ∧ s.returned = true) := by
  obtain ⟨pre, rfl, hpre⟩ := relay_trace_shape g tr hsrc hgo
  refine ⟨⟨pre ++ (if g.binaryMode then [Action.setPayloadType BinaryFrame] else []),
    by simp, ?_⟩, ?_, ?_, ?_, ?_⟩
  · rcases hpre with rfl | rfl <;> cases g.binaryMode <;>
      simp [goCount, recvCount, closeCount]
  · rcases hpre with rfl | rfl <;> cases g.binaryMode <;>
      simp [goCount, recvCount, closeCount, relayPhase]
  · intro sched s hr
    refine Inv_safe (Inv_run ?_ sched hr)
    have hi := Inv.setup
      (pre ++ (if g.binaryMode then [Action.setPayloadType BinaryFrame] else []) ++ [.makeChan])
      (by rcases hpre with rfl | rfl <;> cases g.binaryMode <;> simp [inert])
    simpa [Sys.init, relayPhase] using hi
  · intro sched s c s1 _ hs hne
    exact step_close_by_handler s s1 c hs hne
  · rcases hpre with rfl | rfl <;> cases hb : g.binaryMode
    · exact ⟨[.handler, .handler, .handler, .handler, .copyReturns 0, .recvFrom 0, .handler,
        .handler, .copyReturns 1, .recvFrom 1, .handler], _, rfl, rfl⟩
    · exact ⟨[.handler, .handler, .handler, .handler, .handler, .copyReturns 0, .recvFrom 0,
        .handler, .handler, .copyReturns 1, .recvFrom 1, .handler], _, rfl, rfl⟩
    · exact ⟨[.handler, .handler, .handler, .handler, .handler, .copyReturns 0, .recvFrom 0,
        .handler, .handler, .copyReturns 1, .recvFrom 1, .handler], _, rfl, rfl⟩
    · exact ⟨[.handler, .handler, .handler, .handler, .handler, .handler, .copyReturns 0,
        .recvFrom 0, .handler, .handler, .copyReturns 1, .recvFrom 1, .handler], _, rfl, rfl⟩

/-- Instance of `relay_phase_sequence`: a forward session and a reverse
session, each with text frames. -/
theorem relay_phase_sequence_witness :
    (goCount (wsRelayHandler ⟨"127.0.0.1:9000", false, false, ""⟩ (.ok ()) none) = 2 ∧
     recvCount (wsRelayHandler ⟨"127.0.0.1:9000", false, false, ""⟩ (.ok ()) none) = 2 ∧
     closeCount .conn (wsRelayHandler ⟨"127.0.0.1:9000", false, false, ""⟩ (.ok ()) none) = 1 ∧
     closeCount .ws (wsRelayHandler ⟨"127.0.0.1:9000", false, false, ""⟩ (.ok ()) none) = 1) ∧
    (∀ sched s,
      run (Sys.init (tcpRelayHandle ⟨"host:9000", false, false, ""⟩ (fun _ => none) (.ok ())))
        sched = some s → Safe s) :=
  ⟨(relay_phase_sequence ⟨"127.0.0.1:9000", false, false, ""⟩ _
      (Or.inl ⟨.ok (), none, rfl⟩) (by decide)).2.1,
   (relay_phase_sequence ⟨"host:9000", false, false, ""⟩ _
      (Or.inr ⟨fun _ => none, .ok (), rfl⟩) (by decide)).2.2.1⟩

/-! ## The copy worker -/

/-- The copy loop sends nothing on the channel. -/
theorem ioCopy_no_send (dst : Nat → List Byte → WriteResult) (k : Nat) (src : List ReadResult) :
    CopyEvent.send ∉ (ioCopy dst k src).1 := by
  induction src generalizing k with
  | nil => simp [ioCopy]
  | cons r src ih =>
    simp only [ioCopy]
    split_ifs <;> simp [ih]

/-- The copy loop returns once the reader gives a result with an error. -/
theorem ioCopy_returns (dst : Nat → List Byte → WriteResult) (k : Nat) (src : List ReadResult)
    (h : ∃ r ∈ src, r.err.isSome = true) : (ioCopy dst k src).2 = true := by
  induction src generalizing k with
  | nil => simp at h
  | cons r src ih =>
    by_cases hr : r.err.isSome = true
    · simp only [ioCopy]
      split_ifs <;> rfl
    · have ht : ∃ r1 ∈ src, r1.err.isSome = true := by
        obtain ⟨r1, hr1, he⟩ := h
        rcases List.mem_cons.mp hr1 with rfl | hm
        · exact absurd he hr
        · exact ⟨r1, hm, he⟩
      simp only [ioCopy]
      split_ifs <;> first | rfl | exact ih _ ht

/-- Into a faithful writer the copy loop writes what the reader delivers, and
reads all of it. -/
theorem ioCopy_faithful (dst : Nat → List Byte → WriteResult) (hd : Faithful dst) (k : Nat)
    (src : List ReadResult) :
    bytesWritten (ioCopy dst k src).1 = delivered src ∧
    bytesRead (ioCopy dst k src).1 = delivered src := by
  induction src generalizing k with
  | nil => simp [ioCopy, bytesWritten, bytesRead, delivered]
  | cons r src ih =>
    have he := hd.1 k r.data
    have hn := hd.2 k r.data he
    have hlt : ¬ ((r.data.length : Int) < 0) := by omega
    simp only [ioCopy, delivered]
    by_cases h1 : 0 < r.data.length
    · by_cases h4 : r.err.isSome = true
      · simp [h1, h4, he, hn, hlt, bytesWritten, bytesRead]
      · simp [h1, h4, he, hn, hlt, bytesWritten, bytesRead, ih]
    · have h0 : r.data = [] := by
        cases hdat : r.data with
        | nil => rfl
        | cons b t => simp [hdat] at h1
      by_cases h4 : r.err.isSome = true
      · simp [h0, h4, bytesWritten, bytesRead]
      · simp [h0, h4, bytesWritten, bytesRead, ih]

/-- A send adds no byte to what was written or read. -/
theorem bytes_append_send (l : List CopyEvent) :
    bytesWritten (l ++ [.send]) = bytesWritten l ∧ bytesRead (l ++ [.send]) = bytesRead l := by
  induction l with
  | nil => simp [bytesWritten, bytesRead]
  | cons e l ih => cases e <;> simp [bytesWritten, bytesRead, ih]

/-- C10: `copyWorker` is a pure relay.  Whenever it gets to the end (its copy
loop returned, for whatever reason) its steps are reads and writes followed by
exactly one send of the completion signal, which is its last step; a worker
whose reader never returns sends nothing.  The copy loop returns as soon as the
reader gives end-of-stream or an error, and when a write gives an error.  Into
a destination that returns no write error, the bytes written are exactly the
bytes the source delivered up to its end-of-stream, in the same order, and all
of them have been read. -/
theorem copyWorker_pure_relay :
    (∀ (dst : Nat → List Byte → WriteResult) (src : List ReadResult),
      ((copyWorker dst src).2 = true →
        ∃ body, (copyWorker dst src).1 = body ++ [.send] ∧ CopyEvent.send ∉ body) ∧
      ((copyWorker dst src).2 = false → CopyEvent.send ∉ (copyWorker dst src).1)) ∧
    (∀ (dst : Nat → List Byte → WriteResult) (src : List ReadResult),
      (∃ r ∈ src, r.err.isSome = true) → (copyWorker dst src).2 = true) ∧
    (∀ (dst : Nat → List Byte → WriteResult) (r : ReadResult) (src : List ReadResult),
      0 < r.data.length → (dst 0 r.data).ew.isSome = true →
      copyWorker dst (r :: src) = ([.read r, .write r.data (dst 0 r.data), .send], true)) ∧
    (∀ (dst : Nat → List Byte → WriteResult) (src : List ReadResult), Faithful dst →
      bytesWritten (copyWorker dst src).1 = delivered src ∧
      bytesRead (copyWorker dst src).1 = delivered src) := by
  refine ⟨?_, ?_, ?_, ?_⟩
  · intro dst src
    cases hc : (ioCopy dst 0 src).2
    · simp only [copyWorker, hc]
      refine ⟨fun h => by simp at h, fun _ => ?_⟩
      simpa using ioCopy_no_send dst 0 src
    · simp only [copyWorker, hc]
      exact ⟨fun _ => ⟨(ioCopy dst 0 src).1, by simp, ioCopy_no_send dst 0 src⟩,
        fun h => by simp at h⟩
  · intro dst src h
    simp [copyWorker, ioCopy_returns dst 0 src h]
  · intro dst r src h1 h2
    cases hew : (dst 0 r.data).ew with
    | none => simp [hew] at h2
    | some e => simp [copyWorker, ioCopy, h1, hew]
  · intro dst src hd
    have h := ioCopy_faithful dst hd 0 src
    cases hc : (ioCopy dst 0 src).2
    · simpa [copyWorker, hc] using h
    · simpa [copyWorker, hc, bytes_append_send] using h

/-- Instance of `copyWorker_pure_relay`: the payload `DE AD BE EF` delivered in
two reads, the second with end-of-stream, into a writer that takes everything:
the four bytes are written in order and one completion signal is sent. -/
theorem copyWorker_pure_relay_witness :
    Faithful fullWriter ∧
    copyWorker fullWriter [⟨[0xDE, 0xAD], none⟩, ⟨[0xBE, 0xEF], some .EOF⟩]
      = ([.read ⟨[0xDE, 0xAD], none⟩, .write [0xDE, 0xAD] ⟨2, none⟩,
          .read ⟨[0xBE, 0xEF], some .EOF⟩, .write [0xBE, 0xEF] ⟨2, none⟩, .send], true) ∧
    bytesWritten (copyWorker fullWriter [⟨[0xDE, 0xAD], none⟩, ⟨[0xBE, 0xEF], some .EOF⟩]).1
      = delivered [⟨[0xDE, 0xAD], none⟩, ⟨[0xBE, 0xEF], some .EOF⟩] ∧
    delivered [⟨[0xDE, 0xAD], none⟩, ⟨[0xBE, 0xEF], some .EOF⟩] = [0xDE, 0xAD, 0xBE, 0xEF] :=
  ⟨⟨fun _ _ => rfl, fun _ _ _ => rfl⟩, by decide,
   (copyWorker_pure_relay.2.2.2 fullWriter _ ⟨fun _ _ => rfl, fun _ _ _ => rfl⟩).1,
   by decide⟩

end WsTcpRelay
